import Mathlib

/-!
Verification of `library/docker_simple.py` (ansible-docker-simple).

The module is shallowly embedded: the `Container` class becomes a record
`ContainerState` threaded through pure functions, the docker runtime becomes
an explicit environment `Env` of query results, and the primitive actions
(`docker run`, `docker stop`, ...) become an `Action` alphabet whose effect
on the real runtime is specified by the relation `stepAction`.  Python
values appearing in the module's keyword-argument dictionaries are embedded
as `PyVal`; dictionaries are association lists in iteration order.
-/

namespace DockerSimple

/-- A Python value as it can appear among the module's keyword arguments:
a string, an integer, `None`, a list, or a nested dictionary (`build_args`).
Mirrors the types declared in `module_args` of `run_module`. -/
inductive PyVal where
  | str (s : String)
  | int (n : Int)
  | none
  | list (xs : List PyVal)
  | dict (entries : List (String × PyVal))

/-- Python truthiness (`if value:`): empty string, zero, `None`, empty list
and empty dict are falsy, everything else is truthy. -/
def pyTruthy : PyVal → Bool
  | PyVal.str s => !s.data.isEmpty
  | PyVal.int n => decide (n ≠ 0)
  | PyVal.none => false
  | PyVal.list xs => !xs.isEmpty
  | PyVal.dict es => !es.isEmpty

/-- Python `str(value)` for the values the module actually serializes
(strings pass through, numbers are rendered, `None` renders as "None").
The module never reaches `str` on a nested list or dict with well-typed
arguments, so those cases use a fixed rendering. -/
def pyStr : PyVal → String
  | PyVal.str s => s
  | PyVal.int n => toString n
  | PyVal.none => "None"
  | PyVal.list _ => "<list>"
  | PyVal.dict _ => "<dict>"

/-- Python `key.replace('_', '-')` for the single-character pattern:
every underscore is replaced by a hyphen. -/
def replaceUnderscores (s : String) : String :=
  String.mk (s.data.map (fun c => if c = '_' then '-' else c))

/-- Dictionary lookup on an association list (Python `kwargs[key]` /
`key in kwargs`): the value of the first binding of the key. -/
def lookupKey (k : String) (kwargs : List (String × PyVal)) : Option PyVal :=
  (kwargs.find? (fun e => e.1 == k)).map (fun e => e.2)

/-- Python `kwargs.pop(key)` without a default: the value of the key and the
dictionary without that binding, or nothing when the key is absent (in which
case Python raises `KeyError`). -/
def popKey (k : String) : List (String × PyVal) → Option (PyVal × List (String × PyVal))
  | [] => Option.none
  | e :: rest =>
    if e.1 == k then some (e.2, rest)
    else (popKey k rest).map (fun p => (p.1, e :: p.2))

/-- Python dict assignment `d[key] = v`: replace an existing binding in
place, otherwise append the new binding (insertion order). -/
def setKey (es : List (String × PyVal)) (k : String) (v : PyVal) : List (String × PyVal) :=
  if es.any (fun e => e.1 == k) then
    es.map (fun e => if e.1 == k then (k, v) else e)
  else es ++ [(k, v)]

/-- `Container._construct_docker_command`: starts from `['docker', command]`
and, for each `(key, value)` pair in iteration order, extends the token list
with `--` + key (underscores replaced by hyphens) paired with the string
form of the value — once per element for a list value, once for a truthy
scalar, not at all for a falsy value.  The accumulating `foldl` mirrors the
imperative `command.extend` loop of the source. -/
def constructDockerCommand (command : String) (kwargs : List (String × PyVal)) : List String :=
  kwargs.foldl
    (fun acc kv =>
      match kv.2 with
      | PyVal.list xs =>
        xs.foldl (fun a x => a ++ ["--" ++ replaceUnderscores kv.1, pyStr x]) acc
      | v =>
        if pyTruthy v then acc ++ ["--" ++ replaceUnderscores kv.1, pyStr v] else acc)
    ["docker", command]

/-- `Container._construct_docker_build_command`: pops `build_args`
(defaulting to an empty dict, and coercing an explicit `None` to an empty
dict), injects `tag = image`, serializes via the generic rule under the
`build` subcommand, and appends `--no-cache` and the build-context token. -/
def constructDockerBuildCommand (image : String) (kwargs : List (String × PyVal)) : List String :=
  let buildArgs :=
    match (lookupKey "build_args" kwargs).getD (PyVal.dict []) with
    | PyVal.none => PyVal.dict []
    | v => v
  let entries :=
    match buildArgs with
    | PyVal.dict es => es
    | _ => []
  constructDockerCommand "build" (setKey entries "tag" (PyVal.str image)) ++ ["--no-cache", "."]

/-- `Container._construct_docker_run_command`: pops the positional `command`
entry (raising `KeyError` when absent, rendered as `Except.error`),
serializes the remaining options under the `run` subcommand, appends the
detach flag and the image reference, and appends the command when truthy. -/
def constructDockerRunCommand (image : String) (kwargs : List (String × PyVal)) :
    Except String (List String) :=
  match popKey "command" kwargs with
  | Option.none => Except.error "KeyError: \x27command\x27"
  | some (command, rest) =>
    Except.ok
      (constructDockerCommand "run" rest ++ ["-d"] ++ [image] ++
        (if pyTruthy command then [pyStr command] else []))

/-- The flags the specification's generic serialization rule emits for one
`(key, value)` pair: the flag name is `--` + key with underscores replaced
by hyphens; a list value emits the flag once per element paired with the
element's string form, a truthy scalar emits it exactly once paired with
its string form, and a falsy value emits nothing. -/
def specOptionFlags (kv : String × PyVal) : List String :=
  match kv.2 with
  | PyVal.list xs => xs.flatMap (fun x => ["--" ++ replaceUnderscores kv.1, pyStr x])
  | v => if pyTruthy v then ["--" ++ replaceUnderscores kv.1, pyStr v] else []

lemma foldl_append_extend {α β : Type} (g : α → List β) (l : List α) (init : List β) :
    l.foldl (fun a x => a ++ g x) init = init ++ l.flatMap g := by
  induction l generalizing init with
  | nil => simp
  | cons x xs ih => simp [ih, List.append_assoc]

lemma emit_step (kv : String × PyVal) (acc : List String) :
    (match kv.2 with
      | PyVal.list xs =>
        xs.foldl (fun a x => a ++ ["--" ++ replaceUnderscores kv.1, pyStr x]) acc
      | v =>
        if pyTruthy v then acc ++ ["--" ++ replaceUnderscores kv.1, pyStr v] else acc) =
      acc ++ specOptionFlags kv := by
  rcases kv with ⟨k, v⟩
  cases v with
  | list xs =>
    simpa [specOptionFlags] using
      foldl_append_extend (fun x => ["--" ++ replaceUnderscores k, pyStr x]) xs acc
  | str s => by_cases h : pyTruthy (PyVal.str s) <;> simp [specOptionFlags, h]
  | int n => by_cases h : pyTruthy (PyVal.int n) <;> simp [specOptionFlags, h]
  | none => simp [specOptionFlags, pyTruthy]
  | dict es => by_cases h : pyTruthy (PyVal.dict es) <;> simp [specOptionFlags, h]

lemma foldl_emit (kwargs : List (String × PyVal)) (init : List String) :
    kwargs.foldl
        (fun acc kv =>
          match kv.2 with
          | PyVal.list xs =>
            xs.foldl (fun a x => a ++ ["--" ++ replaceUnderscores kv.1, pyStr x]) acc
          | v =>
            if pyTruthy v then acc ++ ["--" ++ replaceUnderscores kv.1, pyStr v] else acc)
        init =
      init ++ kwargs.flatMap specOptionFlags := by
  induction kwargs generalizing init with
  | nil => simp
  | cons kv rest ih => rw [List.foldl_cons, emit_step kv, ih]; simp

/-- C6: for every option mapping, the generic serialization emits, per
`(key, value)` pair in the mapping's iteration order, the flag name `--` +
key with every underscore replaced by a hyphen: once per list element paired
with that element's string form when the value is a list, exactly once
paired with the value's string form when the value is a truthy scalar, and
nothing at all when the value is falsy. -/
theorem constructDockerCommand_spec (command : String) (kwargs : List (String × PyVal)) :
    constructDockerCommand command kwargs =
      ["docker", command] ++ kwargs.flatMap specOptionFlags := by
  unfold constructDockerCommand
  exact foldl_emit kwargs ["docker", command]

/-- C10: for every option mapping that contains no `command` key, run-command
construction fails with the `KeyError` of the defaultless pop instead of
returning a token list; with a `command` entry present, even a null one,
construction succeeds. -/
theorem constructDockerRunCommand_requires_command (image : String)
    (kwargs : List (String × PyVal)) (h : ∀ kv ∈ kwargs, kv.1 ≠ "command") :
    constructDockerRunCommand image kwargs = Except.error "KeyError: \x27command\x27" ∧
      (constructDockerRunCommand image (("command", PyVal.none) :: kwargs)).isOk = true := by
  constructor
  · have hp : popKey "command" kwargs = Option.none := by
      induction kwargs with
      | nil => rfl
      | cons e rest ih =>
        have he : (e.1 == "command") = false := by
          simpa using h e (List.mem_cons_self e rest)
        simp [popKey, he, ih (fun kv hkv => h kv (List.mem_cons_of_mem e hkv))]
    simp [constructDockerRunCommand, hp]
  · simp [constructDockerRunCommand, popKey, Except.isOk, Except.toBool]

/-- Witness for C10 at a concrete mapping without a `command` key. -/
theorem constructDockerRunCommand_requires_command_witness :
    (∀ kv ∈ [(("name" : String), PyVal.str "c")], kv.1 ≠ "command") ∧
      (constructDockerRunCommand "foo" [("name", PyVal.str "c")] =
          Except.error "KeyError: \x27command\x27" ∧
        (constructDockerRunCommand "foo"
            (("command", PyVal.none) :: [("name", PyVal.str "c")])).isOk = true) :=
  ⟨by decide, constructDockerRunCommand_requires_command "foo" [("name", PyVal.str "c")]
    (by decide)⟩

/-- The state the `Container` constructor establishes: the container's name
and (possibly `:local`-suffixed) image, the local-vs-remote mode flag, the
two lines read from the persisted record, the constructed build and run
token lists with their space-joined string forms, and the mutable outcome
fields `changed` and `change_reason`. -/
structure ContainerState where
  name : String
  image : String
  isLocalImage : Bool
  prevBuildCommand : String
  prevRunCommand : String
  buildCommand : List String
  runCommand : List String
  buildCommandStr : String
  runCommandStr : String
  changed : Bool
  changeReason : List String

/-- Python `' '.join(tokens)`. -/
def joinSpace : List String → String
  | [] => ""
  | [x] => x
  | x :: xs => x ++ " " ++ joinSpace xs

/-- One `readline()` followed by stripping the trailing newline: the
characters up to the first newline, and the rest of the content. -/
def readLine : List Char → List Char × List Char
  | [] => ([], [])
  | c :: cs =>
    if c = '\n' then ([], cs)
    else
      let p := readLine cs
      (c :: p.1, p.2)

/-- The two `readline()` calls of the constructor on the persisted record
file, with trailing newlines stripped: the previous build-command string and
the previous run-command string (empty when the file is shorter). -/
def readRecord (content : String) : String × String :=
  let p := readLine content.data
  let q := readLine p.2
  (String.mk p.1, String.mk q.1)

/-- How the `Container` constructor can fail: the module's own
`InvalidArgumentException`, the uncaught `TypeError` of subscripting a
`None` image, and the uncaught `KeyError` of a defaultless `pop`. -/
inductive InitError where
  | invalidArgument (msg : String)
  | typeError
  | keyError
deriving DecidableEq

/-- Python `self.image[:-6]`: all characters except the last six (empty when
the string has at most six characters). -/
def pySliceDropLast6 (s : String) : String :=
  String.mk (s.data.take (s.data.length - 6))

/-- Python truthiness of the optional `path` argument (`if self.path:`). -/
def pathTruthy : Option String → Bool
  | Option.none => false
  | some p => !p.data.isEmpty

/-- The tail of `Container.__init__` after the local/remote image branch:
read the two-line persisted record, construct the build and run commands
from the remaining keyword arguments (which still contain `name` and
`command`), and join them into their string forms.  `changed` starts false
and the reason log empty. -/
def initFinish (name img : String) (isLocal : Bool) (kwargs : List (String × PyVal))
    (fileContent : String) : Except InitError ContainerState :=
  let prev := readRecord fileContent
  let buildCommand := constructDockerBuildCommand img kwargs
  match constructDockerRunCommand img kwargs with
  | Except.error _ => Except.error InitError.keyError
  | Except.ok runCommand =>
    Except.ok
      { name := name
        image := img
        isLocalImage := isLocal
        prevBuildCommand := prev.1
        prevRunCommand := prev.2
        buildCommand := buildCommand
        runCommand := runCommand
        buildCommandStr := joinSpace buildCommand
        runCommandStr := joinSpace runCommand
        changed := false
        changeReason := [] }

/-- `Container.__init__`: reads `name` from the keyword arguments, takes the
already-popped `image` and `path` (defaulting to `None`), and branches on
the truthiness of `path`.  In local mode an image containing a colon is
rejected and `:local` is appended; in remote mode the source compares
`image[:-6]` — all but the last six characters — against `":local"`.  In
either branch, an absent image raises `TypeError` (iterating over or
subscripting `None`) before any file or runtime interaction. -/
def initContainer (kwargs : List (String × PyVal)) (image path : Option String)
    (fileContent : String) : Except InitError ContainerState :=
  match lookupKey "name" kwargs with
  | Option.none => Except.error InitError.keyError
  | some nameVal =>
    if pathTruthy path then
      match image with
      | Option.none => Except.error InitError.typeError
      | some img =>
        if img.data.contains ':' then
          Except.error (InitError.invalidArgument "No tags are allowed when building a local image")
        else
          initFinish (pyStr nameVal) (img ++ ":local") true kwargs fileContent
    else
      match image with
      | Option.none => Except.error InitError.typeError
      | some img =>
        if pySliceDropLast6 img = ":local" then
          Except.error (InitError.invalidArgument "The \x27local\x27 tag is reserved for locally built images")
        else
          initFinish (pyStr nameVal) img false kwargs fileContent

/-- C3: in remote-pull mode the reserved-suffix guard compares all but the
last six characters of the image against `":local"`, so `image = "foo:local"`
is NOT rejected: construction succeeds instead of raising the
invalid-argument error the specification (and the module's own docstring and
exception message) promise. -/
theorem local_tag_not_rejected :
    (initContainer [("name", PyVal.str "c"), ("command", PyVal.none)]
        (some "foo:local") Option.none "").isOk = true ∧
      pySliceDropLast6 "foo:local" = "foo" := by
  constructor
  · rfl
  · rfl

/-- C5: with desired state Stopped and no image supplied, `image` defaults to
`None` and the remote-mode suffix check subscripts it (`self.image[:-6]`),
raising an uncaught `TypeError` — construction fails instead of succeeding
as the specification (and the module docstring) require. -/
theorem stopped_without_image_type_error :
    initContainer [("name", PyVal.str "c"), ("command", PyVal.none)]
        Option.none Option.none "" = Except.error InitError.typeError := by
  rfl

/-- The docker runtime as the reconciler observes it through its three
inspect queries: the raw output of `docker inspect .State.Running` on the
container (`Option.none` = nonzero exit, i.e. the container does not
exist), the creation timestamp of the image (`Option.none` = nonzero exit;
a successfully parsed timestamp otherwise), the recursive file walk under
the Dockerfile path as (name, mtime) pairs in walk order, and the raw
output of `docker inspect .ID` on the image (`Option.none` = nonzero
exit). -/
structure Env where
  inspectRunning : Option String
  inspectCreated : Option Nat
  files : List (String × Nat)
  inspectId : Option String

/-- The docker subcommands the reconciler can execute. -/
inductive Action where
  | build
  | pull
  | run
  | start
  | restart
  | stop
  | remove
deriving DecidableEq, Repr

/-- Substring test on character lists (Python `in` on strings). -/
def hasSub (needle : List Char) : List Char → Bool
  | [] => needle.isEmpty
  | c :: cs => needle.isPrefixOf (c :: cs) || hasSub needle cs

/-- Python `'true' in output`. -/
def containsTrue (s : String) : Bool :=
  hasSub "true".data s.data

/-- `Container.running`: `True`/`False` from the inspect output's `'true'`
substring test, or `None` when the inspect command exits nonzero (the
container does not exist). -/
def running (env : Env) : Option Bool :=
  env.inspectRunning.map containsTrue

/-- `Container.needs_rebuild` (local-image mode): `True` with a reason when
the build-command string drifted from the persisted one; otherwise `True`
with a reason when the image-creation query fails; otherwise `True` with a
reason naming the first walked file whose modification time is strictly
later than the image creation time, and `False` when no such file exists.
Returned as (result, reasons appended to `change_reason`). -/
def needsRebuild (st : ContainerState) (env : Env) : Bool × List String :=
  if st.buildCommandStr ≠ st.prevBuildCommand then
    (true, ["Arguments changed for build command"])
  else
    match env.inspectCreated with
    | Option.none => (true, ["Image not found, needs rebuild"])
    | some t =>
      match env.files.find? (fun f => decide (t < f.2)) with
      | some f => (true, ["File changed: " ++ f.1])
      | Option.none => (false, [])

/-- `Container.needs_pull` (remote-image mode): `True` with a reason when
the image-ID query fails, otherwise `not output` — `True` exactly when the
query reports an empty ID. -/
def needsPull (st : ContainerState) (env : Env) : Bool × List String :=
  match env.inspectId with
  | Option.none => (true, ["Image not found, needs pull"])
  | some out => (decide (out = ""), [])

/-- A primitive action's state mutation: append one reason, set
`changed = true`. -/
def markChanged (st : ContainerState) (r : String) : ContainerState :=
  { st with changed := true, changeReason := st.changeReason ++ [r] }

/-- Append a reason without touching `changed`. -/
def addReason (st : ContainerState) (r : String) : ContainerState :=
  { st with changeReason := st.changeReason ++ [r] }

/-- `Container.run`. -/
def runOp (p : ContainerState × List Action) : ContainerState × List Action :=
  (markChanged p.1 "Executed \x27docker run\x27", p.2 ++ [Action.run])

/-- `Container.start`. -/
def startOp (p : ContainerState × List Action) : ContainerState × List Action :=
  (markChanged p.1 "Executed \x27docker start\x27", p.2 ++ [Action.start])

/-- `Container.stop`. -/
def stopOp (p : ContainerState × List Action) : ContainerState × List Action :=
  (markChanged p.1 "Executed \x27docker stop\x27", p.2 ++ [Action.stop])

/-- `Container.remove`. -/
def removeOp (p : ContainerState × List Action) : ContainerState × List Action :=
  (markChanged p.1 "Executed \x27docker rm\x27", p.2 ++ [Action.remove])

/-- `Container.build`. -/
def buildOp (p : ContainerState × List Action) : ContainerState × List Action :=
  (markChanged p.1 "Executed \x27docker build\x27", p.2 ++ [Action.build])

/-- `Container.pull`. -/
def pullOp (p : ContainerState × List Action) : ContainerState × List Action :=
  (markChanged p.1 "Executed \x27docker pull\x27", p.2 ++ [Action.pull])

/-- `Container.restart`: when `changed` is already set, a plain restart
cannot apply the new image, so stop, remove and run; otherwise a single
`docker restart`. -/
def restartOp (p : ContainerState × List Action) : ContainerState × List Action :=
  if p.1.changed then runOp (removeOp (stopOp p))
  else (markChanged p.1 "Executed \x27docker restart\x27", p.2 ++ [Action.restart])

/-- `Container.ensure_image_is_updated`: rebuild when a local image is
stale, pull when a remote image is absent; either check's reasons are
appended first. -/
def ensureImageIsUpdated (st : ContainerState) (env : Env) : ContainerState × List Action :=
  if st.isLocalImage then
    if (needsRebuild st env).1 then
      buildOp ({ st with changeReason := st.changeReason ++ (needsRebuild st env).2 }, [])
    else ({ st with changeReason := st.changeReason ++ (needsRebuild st env).2 }, [])
  else
    if (needsPull st env).1 then
      pullOp ({ st with changeReason := st.changeReason ++ (needsPull st env).2 }, [])
    else ({ st with changeReason := st.changeReason ++ (needsPull st env).2 }, [])

/-- The drift log entry of `ensure_running`: record a reason when the
current run-command string differs from the persisted one. -/
def afterDrift (p : ContainerState × List Action) : ContainerState × List Action :=
  if p.1.runCommandStr ≠ p.1.prevRunCommand then
    (addReason p.1 "Arguments changed for run command", p.2)
  else p

/-- `Container.ensure_running`: freshness step, drift log entry, then the
probe (in the source the probe result `runs` is taken after the freshness
step; queries do not mutate the runtime, so the order is immaterial here):
running with a change or drift → stop, remove, run; nonexistent → run;
stopped with a change or drift → remove, run; stopped otherwise → start. -/
def ensureRunning (st : ContainerState) (env : Env) : ContainerState × List Action :=
  match running env with
  | some true =>
    if (afterDrift (ensureImageIsUpdated st env)).1.changed
        || decide ((afterDrift (ensureImageIsUpdated st env)).1.runCommandStr
            ≠ (afterDrift (ensureImageIsUpdated st env)).1.prevRunCommand) then
      runOp (removeOp (stopOp (afterDrift (ensureImageIsUpdated st env))))
    else afterDrift (ensureImageIsUpdated st env)
  | Option.none => runOp (afterDrift (ensureImageIsUpdated st env))
  | some false =>
    if (afterDrift (ensureImageIsUpdated st env)).1.changed
        || decide ((afterDrift (ensureImageIsUpdated st env)).1.runCommandStr
            ≠ (afterDrift (ensureImageIsUpdated st env)).1.prevRunCommand) then
      runOp (removeOp (afterDrift (ensureImageIsUpdated st env)))
    else startOp (afterDrift (ensureImageIsUpdated st env))

/-- `Container.ensure_stopped`: stop exactly when the probe reports a
running container (a `None` probe result is falsy). -/
def ensureStopped (st : ContainerState) (env : Env) : ContainerState × List Action :=
  match running env with
  | some true => stopOp (st, [])
  | _ => (st, [])

/-- `Container.ensure_restarted`: no freshness step; running → restart,
nonexistent → run, stopped → remove and run when `changed`, else start. -/
def ensureRestarted (st : ContainerState) (env : Env) : ContainerState × List Action :=
  match running env with
  | some true => restartOp (st, [])
  | Option.none => runOp (st, [])
  | some false =>
    if st.changed then runOp (removeOp (st, []))
    else startOp (st, [])

/-- `Container.__del__`: overwrite (seek, write, truncate) the persisted
record with the current build and run command strings on two lines whenever
both command token lists are truthy (non-empty), otherwise leave the file
content as it was. -/
def delSave (st : ContainerState) (content : String) : String :=
  if !st.runCommand.isEmpty && !st.buildCommand.isEmpty then
    st.buildCommandStr ++ "\n" ++ st.runCommandStr
  else content

/-- C7: in local-image mode, `needs_rebuild` returns true exactly when the
build-command string drifted from the persisted one, or the image-creation
query failed, or some file in the walk of the Dockerfile tree has a
modification time strictly later than the image's creation time; it returns
false only when none of these hold. -/
theorem needsRebuild_spec (st : ContainerState) (env : Env) :
    (needsRebuild st env).1 = true ↔
      st.buildCommandStr ≠ st.prevBuildCommand ∨
        env.inspectCreated = Option.none ∨
        ∃ t, env.inspectCreated = some t ∧ ∃ f ∈ env.files, t < f.2 := by
  by_cases hb : st.buildCommandStr ≠ st.prevBuildCommand
  · simp [needsRebuild, hb]
  · cases hc : env.inspectCreated with
    | none => simp [needsRebuild, hb, hc]
    | some t =>
      cases hf : env.files.find? (fun f => decide (t < f.2)) with
      | none =>
        have hall : ∀ f ∈ env.files, ¬ t < f.2 := by
          intro f hm
          simpa using List.find?_eq_none.mp hf f hm
        simp only [needsRebuild, if_neg hb, hc, hf]
        constructor
        · intro h; simp at h
        · rintro (h | h | ⟨t', ht', f, hm, hlt⟩)
          · exact absurd h hb
          · cases h
          · cases ht'
            exact absurd hlt (hall f hm)
      | some f =>
        have hmem := List.mem_of_find?_eq_some hf
        have hlt : t < f.2 := by simpa using List.find?_some hf
        simp only [needsRebuild, if_neg hb, hc, hf]
        constructor
        · intro _; exact Or.inr (Or.inr ⟨t, rfl, f, hmem, hlt⟩)
        · intro _; trivial

/-- C8: a nonzero exit of an inspect query is interpreted as absence and
never propagated: `running` returns the distinct does-not-exist value
(`None`) when its query fails, and `needs_pull` returns true both when the
image-ID query fails and when it reports an empty ID. -/
theorem query_failure_treated_as_absence (st : ContainerState) (c : Option Nat)
    (fs : List (String × Nat)) (r : Option String) (i : Option String) :
    running (Env.mk Option.none c fs i) = Option.none ∧
      (needsPull st (Env.mk r c fs Option.none)).1 = true ∧
      (needsPull st (Env.mk r c fs (some ""))).1 = true := by
  refine ⟨rfl, rfl, ?_⟩
  simp [needsPull]

lemma afterDrift_snd (p : ContainerState × List Action) : (afterDrift p).2 = p.2 := by
  unfold afterDrift; split <;> rfl

lemma afterDrift_changed (p : ContainerState × List Action) :
    (afterDrift p).1.changed = p.1.changed := by
  unfold afterDrift; split <;> rfl

lemma afterDrift_runCommandStr (p : ContainerState × List Action) :
    (afterDrift p).1.runCommandStr = p.1.runCommandStr := by
  unfold afterDrift; split <;> rfl

lemma afterDrift_prevRunCommand (p : ContainerState × List Action) :
    (afterDrift p).1.prevRunCommand = p.1.prevRunCommand := by
  unfold afterDrift; split <;> rfl

lemma afterDrift_buildCommand (p : ContainerState × List Action) :
    (afterDrift p).1.buildCommand = p.1.buildCommand := by
  unfold afterDrift; split <;> rfl

lemma afterDrift_runCommand (p : ContainerState × List Action) :
    (afterDrift p).1.runCommand = p.1.runCommand := by
  unfold afterDrift; split <;> rfl

lemma afterDrift_buildCommandStr (p : ContainerState × List Action) :
    (afterDrift p).1.buildCommandStr = p.1.buildCommandStr := by
  unfold afterDrift; split <;> rfl

lemma eiiu_runCommandStr (st : ContainerState) (env : Env) :
    (ensureImageIsUpdated st env).1.runCommandStr = st.runCommandStr := by
  unfold ensureImageIsUpdated; split <;> split <;> rfl

lemma eiiu_prevRunCommand (st : ContainerState) (env : Env) :
    (ensureImageIsUpdated st env).1.prevRunCommand = st.prevRunCommand := by
  unfold ensureImageIsUpdated; split <;> split <;> rfl

lemma eiiu_buildCommand (st : ContainerState) (env : Env) :
    (ensureImageIsUpdated st env).1.buildCommand = st.buildCommand := by
  unfold ensureImageIsUpdated; split <;> split <;> rfl

lemma eiiu_runCommand (st : ContainerState) (env : Env) :
    (ensureImageIsUpdated st env).1.runCommand = st.runCommand := by
  unfold ensureImageIsUpdated; split <;> split <;> rfl

lemma eiiu_buildCommandStr (st : ContainerState) (env : Env) :
    (ensureImageIsUpdated st env).1.buildCommandStr = st.buildCommandStr := by
  unfold ensureImageIsUpdated; split <;> split <;> rfl

lemma eiiu_changed (st : ContainerState) (env : Env) (h : st.changed = false) :
    (ensureImageIsUpdated st env).1.changed =
      decide ((ensureImageIsUpdated st env).2 ≠ []) := by
  unfold ensureImageIsUpdated
  split <;> split <;> simp [buildOp, pullOp, markChanged, h]

lemma eiiu_actions_cases (st : ContainerState) (env : Env) :
    (ensureImageIsUpdated st env).2 = [] ∨
      (ensureImageIsUpdated st env).2 = [Action.build] ∨
      (ensureImageIsUpdated st env).2 = [Action.pull] := by
  unfold ensureImageIsUpdated
  split <;> split <;> simp [buildOp, pullOp]

/-- C2: under a clean `changed` flag, the executed action sequence of
`ensure_running` is the freshness step's actions followed by: stop, remove,
run when the probe reports running and the image changed (the freshness
step acted) or the run command drifted; just run when the container does
not exist; remove, run when it exists stopped and the image changed or the
command drifted; and start alone otherwise. -/
theorem ensureRunning_transition (st : ContainerState) (env : Env) (h : st.changed = false) :
    (ensureRunning st env).2 =
      (ensureImageIsUpdated st env).2 ++
        (match running env with
          | some true =>
            if decide ((ensureImageIsUpdated st env).2 ≠ [])
                || decide (st.runCommandStr ≠ st.prevRunCommand) then
              [Action.stop, Action.remove, Action.run]
            else []
          | Option.none => [Action.run]
          | some false =>
            if decide ((ensureImageIsUpdated st env).2 ≠ [])
                || decide (st.runCommandStr ≠ st.prevRunCommand) then
              [Action.remove, Action.run]
            else [Action.start]) := by
  have hcond : ((afterDrift (ensureImageIsUpdated st env)).1.changed
      || decide ((afterDrift (ensureImageIsUpdated st env)).1.runCommandStr
          ≠ (afterDrift (ensureImageIsUpdated st env)).1.prevRunCommand)) =
      (decide ((ensureImageIsUpdated st env).2 ≠ [])
        || decide (st.runCommandStr ≠ st.prevRunCommand)) := by
    rw [afterDrift_changed, afterDrift_runCommandStr, afterDrift_prevRunCommand,
      eiiu_changed st env h, eiiu_runCommandStr, eiiu_prevRunCommand]
  cases hr : running env with
  | none =>
    simp only [ensureRunning, hr, runOp]
    simp [afterDrift_snd]
  | some b =>
    cases b with
    | true =>
      simp only [ensureRunning, hr, hcond]
      cases hb : (decide ((ensureImageIsUpdated st env).2 ≠ [])
          || decide (st.runCommandStr ≠ st.prevRunCommand)) with
      | true => simp [runOp, removeOp, stopOp, afterDrift_snd]
      | false => simp [afterDrift_snd]
    | false =>
      simp only [ensureRunning, hr, hcond]
      cases hb : (decide ((ensureImageIsUpdated st env).2 ≠ [])
          || decide (st.runCommandStr ≠ st.prevRunCommand)) with
      | true => simp [runOp, removeOp, afterDrift_snd]
      | false => simp [startOp, afterDrift_snd]

/-- Witness for C2 at a concrete state and environment: a clean remote-mode
state whose image is present and whose run command matches the persisted
one, against a running container. -/
theorem ensureRunning_transition_witness :
    (ContainerState.mk "c" "foo" false "docker build" "docker run"
        ["docker", "build"] ["docker", "run"] "docker build" "docker run"
        false []).changed = false ∧
      (ensureRunning
          (ContainerState.mk "c" "foo" false "docker build" "docker run"
            ["docker", "build"] ["docker", "run"] "docker build" "docker run"
            false [])
          (Env.mk (some "true") Option.none [] (some "id"))).2 =
        (ensureImageIsUpdated
            (ContainerState.mk "c" "foo" false "docker build" "docker run"
              ["docker", "build"] ["docker", "run"] "docker build" "docker run"
              false [])
            (Env.mk (some "true") Option.none [] (some "id"))).2 ++
          (match running (Env.mk (some "true") Option.none [] (some "id")) with
            | some true =>
              if decide ((ensureImageIsUpdated
                    (ContainerState.mk "c" "foo" false "docker build" "docker run"
                      ["docker", "build"] ["docker", "run"] "docker build" "docker run"
                      false [])
                    (Env.mk (some "true") Option.none [] (some "id"))).2 ≠ [])
                  || decide (("docker run" : String) ≠ "docker run") then
                [Action.stop, Action.remove, Action.run]
              else []
            | Option.none => [Action.run]
            | some false =>
              if decide ((ensureImageIsUpdated
                    (ContainerState.mk "c" "foo" false "docker build" "docker run"
                      ["docker", "build"] ["docker", "run"] "docker build" "docker run"
                      false [])
                    (Env.mk (some "true") Option.none [] (some "id"))).2 ≠ [])
                  || decide (("docker run" : String) ≠ "docker run") then
                [Action.remove, Action.run]
              else [Action.start]) :=
  ⟨rfl, ensureRunning_transition _ _ rfl⟩

/-- C9: `ensure_restarted` never executes a build or a pull (no image
freshness check), and when the container is running with no prior step
having set the changed flag it executes exactly one restart and reports a
change. -/
theorem ensureRestarted_spec (st : ContainerState) (env : Env) :
    (Action.build ∉ (ensureRestarted st env).2 ∧ Action.pull ∉ (ensureRestarted st env).2) ∧
      (running env = some true → st.changed = false →
        (ensureRestarted st env).2 = [Action.restart] ∧
          (ensureRestarted st env).1.changed = true) := by
  cases hr : running env with
  | none =>
    refine ⟨⟨?_, ?_⟩, ?_⟩ <;> simp [ensureRestarted, hr, runOp]
  | some b =>
    cases b with
    | true =>
      constructor
      · cases hch : st.changed with
        | true =>
          constructor <;>
            simp [ensureRestarted, hr, restartOp, hch, runOp, removeOp, stopOp]
        | false =>
          constructor <;> simp [ensureRestarted, hr, restartOp, hch]
      · intro _ hch
        simp [ensureRestarted, hr, restartOp, hch, markChanged]
    | false =>
      constructor
      · cases hch : st.changed with
        | true =>
          constructor <;> simp [ensureRestarted, hr, hch, runOp, removeOp]
        | false =>
          constructor <;> simp [ensureRestarted, hr, hch, startOp]
      · intro hcontra
        simp at hcontra

/-- Witness for C9: a running container and a clean state yield exactly one
restart action and a reported change. -/
theorem ensureRestarted_spec_witness :
    running (Env.mk (some "true") Option.none [] Option.none) = some true ∧
      (ContainerState.mk "c" "foo" false "" "" [] [] "" "" false []).changed = false ∧
      ((ensureRestarted (ContainerState.mk "c" "foo" false "" "" [] [] "" "" false [])
            (Env.mk (some "true") Option.none [] Option.none)).2 = [Action.restart] ∧
        (ensureRestarted (ContainerState.mk "c" "foo" false "" "" [] [] "" "" false [])
            (Env.mk (some "true") Option.none [] Option.none)).1.changed = true) :=
  ⟨rfl, rfl, (ensureRestarted_spec _ _).2 rfl rfl⟩

/-- C4: the persisted record is NOT left unchanged when the desired state is
Stopped.  With an image supplied (as any non-Stopped-only configuration
allows), both command token lists are non-empty, so `__del__` overwrites the
two-line record with the current command strings even though the
reconciliation only stopped the container and no running state was reached —
contradicting `__del__`'s own docstring ("Save ... if the container is
running now").  Evaluated at a concrete failing input. -/
theorem stopped_overwrites_record :
    ∃ st, initContainer [("name", PyVal.str "c"), ("command", PyVal.none)]
          (some "foo") Option.none "old\nrecord" = Except.ok st ∧
      ensureStopped st (Env.mk (some "true") Option.none [] Option.none) =
        (markChanged st "Executed \x27docker stop\x27", [Action.stop]) ∧
      delSave (markChanged st "Executed \x27docker stop\x27") "old\nrecord" ≠
        "old\nrecord" := by
  refine ⟨_, rfl, rfl, ?_⟩
  decide

/-- What one executed docker subcommand does to the runtime: `build` leaves
a present image whose creation time is no older than any file of the
(unchanged) build context; `pull` leaves a present image ID; `run`, `start`
and `restart` leave the container's inspect output reporting `true`; `stop`
leaves it reporting not-`true`; `remove` leaves the container nonexistent.
Every action leaves the untargeted parts of the runtime unchanged. -/
def stepAction : Action → Env → Env → Prop
  | Action.build, e, e' =>
    e'.files = e.files ∧ e'.inspectRunning = e.inspectRunning ∧ e'.inspectId = e.inspectId ∧
      ∃ t, e'.inspectCreated = some t ∧ ∀ f ∈ e.files, f.2 ≤ t
  | Action.pull, e, e' =>
    e'.files = e.files ∧ e'.inspectRunning = e.inspectRunning ∧
      e'.inspectCreated = e.inspectCreated ∧ ∃ s, e'.inspectId = some s ∧ s ≠ ""
  | Action.run, e, e' =>
    e'.files = e.files ∧ e'.inspectCreated = e.inspectCreated ∧ e'.inspectId = e.inspectId ∧
      ∃ s, e'.inspectRunning = some s ∧ containsTrue s = true
  | Action.start, e, e' =>
    e'.files = e.files ∧ e'.inspectCreated = e.inspectCreated ∧ e'.inspectId = e.inspectId ∧
      ∃ s, e'.inspectRunning = some s ∧ containsTrue s = true
  | Action.restart, e, e' =>
    e'.files = e.files ∧ e'.inspectCreated = e.inspectCreated ∧ e'.inspectId = e.inspectId ∧
      ∃ s, e'.inspectRunning = some s ∧ containsTrue s = true
  | Action.stop, e, e' =>
    e'.files = e.files ∧ e'.inspectCreated = e.inspectCreated ∧ e'.inspectId = e.inspectId ∧
      ∃ s, e'.inspectRunning = some s ∧ containsTrue s = false
  | Action.remove, e, e' =>
    e'.files = e.files ∧ e'.inspectCreated = e.inspectCreated ∧ e'.inspectId = e.inspectId ∧
      e'.inspectRunning = Option.none

/-- Sequential execution of a list of actions against the runtime. -/
inductive applyActions : Env → List Action → Env → Prop
  | nil (e : Env) : applyActions e [] e
  | cons {a : Action} {as : List Action} {e e₁ e₂ : Env} :
      stepAction a e e₁ → applyActions e₁ as e₂ → applyActions e (a :: as) e₂

lemma stepAction_files {a : Action} {e e' : Env} (h : stepAction a e e') :
    e'.files = e.files := by
  cases a <;> exact h.1

lemma stepAction_created {a : Action} {e e' : Env} (ha : a ≠ Action.build)
    (h : stepAction a e e') : e'.inspectCreated = e.inspectCreated := by
  cases a with
  | build => exact absurd rfl ha
  | pull => exact h.2.2.1
  | run => exact h.2.1
  | start => exact h.2.1
  | restart => exact h.2.1
  | stop => exact h.2.1
  | remove => exact h.2.1

lemma stepAction_id {a : Action} {e e' : Env} (ha : a ≠ Action.pull)
    (h : stepAction a e e') : e'.inspectId = e.inspectId := by
  cases a with
  | pull => exact absurd rfl ha
  | build => exact h.2.2.1
  | run => exact h.2.2.1
  | start => exact h.2.2.1
  | restart => exact h.2.2.1
  | stop => exact h.2.2.1
  | remove => exact h.2.2.1

lemma stepAction_running_imgact {a : Action} {e e' : Env}
    (ha : a = Action.build ∨ a = Action.pull) (h : stepAction a e e') :
    e'.inspectRunning = e.inspectRunning := by
  rcases ha with rfl | rfl
  · exact h.2.1
  · exact h.2.1

lemma applyActions_nil_eq {e e' : Env} (h : applyActions e [] e') : e' = e := by
  cases h; rfl

lemma applyActions_cons_elim {e e₂ : Env} {a : Action} {as : List Action}
    (h : applyActions e (a :: as) e₂) :
    ∃ m, stepAction a e m ∧ applyActions m as e₂ := by
  cases h with
  | cons hs ht => exact ⟨_, hs, ht⟩

lemma applyActions_singleton {e e₂ : Env} {a : Action} (h : applyActions e [a] e₂) :
    stepAction a e e₂ := by
  cases h with
  | cons hs ht => cases ht; exact hs

lemma applyActions_append_elim {e e₂ : Env} {xs ys : List Action}
    (h : applyActions e (xs ++ ys) e₂) :
    ∃ m, applyActions e xs m ∧ applyActions m ys e₂ := by
  induction xs generalizing e with
  | nil => exact ⟨e, applyActions.nil e, h⟩
  | cons a as ih =>
    cases h with
    | cons hs ht =>
      obtain ⟨m, h1, h2⟩ := ih ht
      exact ⟨m, applyActions.cons hs h1, h2⟩

lemma applyActions_files {e e' : Env} {as : List Action} (h : applyActions e as e') :
    e'.files = e.files := by
  induction h with
  | nil => rfl
  | cons hs _ ih => rw [ih, stepAction_files hs]

lemma applyActions_created {e e' : Env} {as : List Action} (hnb : Action.build ∉ as)
    (h : applyActions e as e') : e'.inspectCreated = e.inspectCreated := by
  induction h with
  | nil => rfl
  | cons hs _ ih =>
    rw [ih (fun hm => hnb (List.mem_cons_of_mem _ hm)),
      stepAction_created (fun he => hnb (he ▸ List.mem_cons_self _ _)) hs]

lemma applyActions_id {e e' : Env} {as : List Action} (hnp : Action.pull ∉ as)
    (h : applyActions e as e') : e'.inspectId = e.inspectId := by
  induction h with
  | nil => rfl
  | cons hs _ ih =>
    rw [ih (fun hm => hnp (List.mem_cons_of_mem _ hm)),
      stepAction_id (fun he => hnp (he ▸ List.mem_cons_self _ _)) hs]

lemma applyActions_end_running {e e₂ : Env} {as : List Action} {a : Action}
    (ha : a = Action.run ∨ a = Action.start) (h : applyActions e (as ++ [a]) e₂) :
    running e₂ = some true := by
  obtain ⟨m, _, h2⟩ := applyActions_append_elim h
  have hs := applyActions_singleton h2
  rcases ha with rfl | rfl
  · obtain ⟨_, _, _, s, hsome, hct⟩ := hs
    simp [running, hsome, hct]
  · obtain ⟨_, _, _, s, hsome, hct⟩ := hs
    simp [running, hsome, hct]

lemma needsRebuild_eq_false {st : ContainerState} {env : Env}
    (hb : st.buildCommandStr = st.prevBuildCommand) {t : Nat}
    (hc : env.inspectCreated = some t) (hall : ∀ f ∈ env.files, f.2 ≤ t) :
    needsRebuild st env = (false, []) := by
  have hfind : env.files.find? (fun f => decide (t < f.2)) = Option.none :=
    List.find?_eq_none.mpr (fun f hm => by simpa using Nat.not_lt.mpr (hall f hm))
  simp [needsRebuild, hb, hc, hfind]

lemma needsPull_eq_false {st : ContainerState} {env : Env} {s : String}
    (hs : env.inspectId = some s) (hne : s ≠ "") :
    needsPull st env = (false, []) := by
  simp [needsPull, hs, hne]

lemma needsRebuild_false_elim {st : ContainerState} {env : Env}
    (h : (needsRebuild st env).1 = false) :
    ∃ t, env.inspectCreated = some t ∧ ∀ f ∈ env.files, f.2 ≤ t := by
  by_cases hb : st.buildCommandStr ≠ st.prevBuildCommand
  · simp [needsRebuild, hb] at h
  · cases hc : env.inspectCreated with
    | none => simp [needsRebuild, hb, hc] at h
    | some t =>
      cases hf : env.files.find? (fun f => decide (t < f.2)) with
      | some f => simp [needsRebuild, hb, hc, hf] at h
      | none =>
        refine ⟨t, rfl, fun f hm => ?_⟩
        have h2 : ¬ t < f.2 := by simpa using List.find?_eq_none.mp hf f hm
        exact Nat.le_of_not_lt h2

lemma needsPull_false_elim {st : ContainerState} {env : Env}
    (h : (needsPull st env).1 = false) :
    ∃ s, env.inspectId = some s ∧ s ≠ "" := by
  cases hi : env.inspectId with
  | none => simp [needsPull, hi] at h
  | some s =>
    refine ⟨s, rfl, ?_⟩
    simpa [needsPull, hi] using h

lemma eiiu_post_fresh {st : ContainerState} {env m : Env} (hL : st.isLocalImage = true)
    (h : applyActions env (ensureImageIsUpdated st env).2 m) :
    ∃ t, m.inspectCreated = some t ∧ ∀ f ∈ m.files, f.2 ≤ t := by
  unfold ensureImageIsUpdated at h
  rw [if_pos hL] at h
  by_cases hr : (needsRebuild st env).1 = true
  · rw [if_pos hr] at h
    simp only [buildOp, List.nil_append] at h
    obtain ⟨m1, hs, hrest⟩ := applyActions_cons_elim h
    rw [applyActions_nil_eq hrest]
    obtain ⟨hf, _, _, t, hc, hall⟩ := hs
    exact ⟨t, hc, by rw [hf]; exact hall⟩
  · rw [if_neg hr] at h
    rw [applyActions_nil_eq h]
    have hr' : (needsRebuild st env).1 = false := by simpa using hr
    exact needsRebuild_false_elim hr'

lemma eiiu_post_pulled {st : ContainerState} {env m : Env} (hL : st.isLocalImage = false)
    (h : applyActions env (ensureImageIsUpdated st env).2 m) :
    ∃ s, m.inspectId = some s ∧ s ≠ "" := by
  unfold ensureImageIsUpdated at h
  rw [if_neg (by simp [hL])] at h
  by_cases hr : (needsPull st env).1 = true
  · rw [if_pos hr] at h
    simp only [pullOp, List.nil_append] at h
    obtain ⟨m1, hs, hrest⟩ := applyActions_cons_elim h
    rw [applyActions_nil_eq hrest]
    obtain ⟨_, _, _, s, hi, hne⟩ := hs
    exact ⟨s, hi, hne⟩
  · rw [if_neg hr] at h
    rw [applyActions_nil_eq h]
    have hr' : (needsPull st env).1 = false := by simpa using hr
    exact needsPull_false_elim hr'

lemma eiiu_preserves_running {st : ContainerState} {env m : Env}
    (h : applyActions env (ensureImageIsUpdated st env).2 m) :
    m.inspectRunning = env.inspectRunning := by
  rcases eiiu_actions_cases st env with hc | hc | hc <;> rw [hc] at h
  · rw [applyActions_nil_eq h]
  · obtain ⟨m1, hs, hrest⟩ := applyActions_cons_elim h
    rw [applyActions_nil_eq hrest, stepAction_running_imgact (Or.inl rfl) hs]
  · obtain ⟨m1, hs, hrest⟩ := applyActions_cons_elim h
    rw [applyActions_nil_eq hrest, stepAction_running_imgact (Or.inr rfl) hs]

lemma readLine_no_newline {l : List Char} (h : '\n' ∉ l) : readLine l = (l, []) := by
  induction l with
  | nil => rfl
  | cons c cs ih =>
    have hc : ¬ c = '\n' := fun he => h (he ▸ List.mem_cons_self c cs)
    simp [readLine, hc, ih (fun hm => h (List.mem_cons_of_mem c hm))]

lemma readLine_append {l r : List Char} (h : '\n' ∉ l) :
    readLine (l ++ '\n' :: r) = (l, r) := by
  induction l with
  | nil => simp [readLine]
  | cons c cs ih =>
    have hc : ¬ c = '\n' := fun he => h (he ▸ List.mem_cons_self c cs)
    simp [readLine, hc, ih (fun hm => h (List.mem_cons_of_mem c hm))]

lemma readRecord_two_lines {a b : String} (ha : '\n' ∉ a.data) (hb : '\n' ∉ b.data) :
    readRecord (a ++ "\n" ++ b) = (a, b) := by
  have hdata : (a ++ "\n" ++ b).data = a.data ++ '\n' :: b.data := by
    simp [String.data_append]
  show (String.mk (readLine (a ++ "\n" ++ b).data).1,
      String.mk (readLine (readLine (a ++ "\n" ++ b).data).2).1) = (a, b)
  rw [hdata, readLine_append ha]
  simp [readLine_no_newline hb]

/-- The container state a successful construction establishes for a
specification whose build and run token lists are `bc` and `rc`: the
previous command strings are the two lines read from the persisted record,
`changed` starts false and the reason log empty (the closing part of
`initFinish`). -/
def freshState (name image : String) (isLocal : Bool) (bc rc : List String)
    (content : String) : ContainerState :=
  { name := name
    image := image
    isLocalImage := isLocal
    prevBuildCommand := (readRecord content).1
    prevRunCommand := (readRecord content).2
    buildCommand := bc
    runCommand := rc
    buildCommandStr := joinSpace bc
    runCommandStr := joinSpace rc
    changed := false
    changeReason := [] }

lemma initFinish_eq_freshState (name img : String) (isLocal : Bool)
    (kwargs : List (String × PyVal)) (fileContent : String) {rcmd : List String}
    (h : constructDockerRunCommand img kwargs = Except.ok rcmd) :
    initFinish name img isLocal kwargs fileContent =
      Except.ok (freshState name img isLocal
        (constructDockerBuildCommand img kwargs) rcmd fileContent) := by
  unfold initFinish freshState
  rw [h]

lemma eiiu_fst_shape (st : ContainerState) (env : Env) :
    ∃ c rs, (ensureImageIsUpdated st env).1 =
      { st with changed := c, changeReason := rs } := by
  unfold ensureImageIsUpdated
  split
  · split
    · exact ⟨_, _, rfl⟩
    · exact ⟨_, _, rfl⟩
  · split
    · exact ⟨_, _, rfl⟩
    · exact ⟨_, _, rfl⟩

lemma afterDrift_fst_shape (p : ContainerState × List Action) :
    ∃ rs, (afterDrift p).1 = { p.1 with changeReason := rs } := by
  unfold afterDrift
  split
  · exact ⟨_, rfl⟩
  · exact ⟨p.1.changeReason, rfl⟩

lemma ensureRunning_fst_shape (st : ContainerState) (env : Env) :
    ∃ c rs, (ensureRunning st env).1 = { st with changed := c, changeReason := rs } := by
  obtain ⟨c1, rs1, h1⟩ := eiiu_fst_shape st env
  obtain ⟨rs2, h2⟩ := afterDrift_fst_shape (ensureImageIsUpdated st env)
  have hp : (afterDrift (ensureImageIsUpdated st env)).1 =
      { st with changed := c1, changeReason := rs2 } := by
    rw [h2, h1]
  cases hr : running env with
  | none =>
    simp only [ensureRunning, hr, runOp, markChanged]
    rw [hp]
    exact ⟨_, _, rfl⟩
  | some b =>
    cases b with
    | true =>
      simp only [ensureRunning, hr]
      split
      · simp only [runOp, removeOp, stopOp, markChanged]
        rw [hp]
        exact ⟨_, _, rfl⟩
      · rw [hp]
        exact ⟨_, _, rfl⟩
    | false =>
      simp only [ensureRunning, hr]
      split
      · simp only [runOp, removeOp, markChanged]
        rw [hp]
        exact ⟨_, _, rfl⟩
      · simp only [startOp, markChanged]
        rw [hp]
        exact ⟨_, _, rfl⟩

lemma post_transfer {st : ContainerState} {env mid env₂ : Env} {bs : List Action}
    (h1 : applyActions env (ensureImageIsUpdated st env).2 mid)
    (hnb : Action.build ∉ bs) (hnp : Action.pull ∉ bs)
    (h2 : applyActions mid bs env₂) :
    (st.isLocalImage = true →
        ∃ t, env₂.inspectCreated = some t ∧ ∀ f ∈ env₂.files, f.2 ≤ t) ∧
      (st.isLocalImage = false → ∃ s, env₂.inspectId = some s ∧ s ≠ "") := by
  constructor
  · intro hL
    obtain ⟨t, hmt, hall⟩ := eiiu_post_fresh hL h1
    refine ⟨t, ?_, ?_⟩
    · rw [applyActions_created hnb h2, hmt]
    · rw [applyActions_files h2]; exact hall
  · intro hL
    obtain ⟨s, hsi, hne⟩ := eiiu_post_pulled hL h1
    exact ⟨s, by rw [applyActions_id hnp h2, hsi], hne⟩

lemma ensureRunning_post (st : ContainerState) (env env₂ : Env)
    (h : applyActions env (ensureRunning st env).2 env₂) :
    running env₂ = some true ∧
      (st.isLocalImage = true →
        ∃ t, env₂.inspectCreated = some t ∧ ∀ f ∈ env₂.files, f.2 ≤ t) ∧
      (st.isLocalImage = false → ∃ s, env₂.inspectId = some s ∧ s ≠ "") := by
  cases hr : running env with
  | none =>
    have hlist : (ensureRunning st env).2 =
        (ensureImageIsUpdated st env).2 ++ [Action.run] := by
      simp [ensureRunning, hr, runOp, afterDrift_snd]
    rw [hlist] at h
    obtain ⟨mid, h1, h2⟩ := applyActions_append_elim h
    exact ⟨@applyActions_end_running mid env₂ [] Action.run (Or.inl rfl) h2,
      post_transfer h1 (by decide) (by decide) h2⟩
  | some b =>
    cases b with
    | true =>
      by_cases hcond : ((afterDrift (ensureImageIsUpdated st env)).1.changed
          || decide ((afterDrift (ensureImageIsUpdated st env)).1.runCommandStr
              ≠ (afterDrift (ensureImageIsUpdated st env)).1.prevRunCommand)) = true
      · have hlist : (ensureRunning st env).2 = (ensureImageIsUpdated st env).2 ++
            [Action.stop, Action.remove, Action.run] := by
          simp only [ensureRunning, hr]
          rw [if_pos hcond]
          simp [runOp, removeOp, stopOp, afterDrift_snd]
        rw [hlist] at h
        obtain ⟨mid, h1, h2⟩ := applyActions_append_elim h
        exact ⟨@applyActions_end_running mid env₂ [Action.stop, Action.remove]
            Action.run (Or.inl rfl) h2,
          post_transfer h1 (by decide) (by decide) h2⟩
      · have hlist : (ensureRunning st env).2 = (ensureImageIsUpdated st env).2 := by
          simp only [ensureRunning, hr]
          rw [if_neg hcond]
          exact afterDrift_snd _
        rw [hlist] at h
        have hrun : running env₂ = some true := by
          unfold running
          rw [eiiu_preserves_running h]
          exact hr
        exact ⟨hrun, post_transfer h (by decide) (by decide) (applyActions.nil env₂)⟩
    | false =>
      by_cases hcond : ((afterDrift (ensureImageIsUpdated st env)).1.changed
          || decide ((afterDrift (ensureImageIsUpdated st env)).1.runCommandStr
              ≠ (afterDrift (ensureImageIsUpdated st env)).1.prevRunCommand)) = true
      · have hlist : (ensureRunning st env).2 = (ensureImageIsUpdated st env).2 ++
            [Action.remove, Action.run] := by
          simp only [ensureRunning, hr]
          rw [if_pos hcond]
          simp [runOp, removeOp, afterDrift_snd]
        rw [hlist] at h
        obtain ⟨mid, h1, h2⟩ := applyActions_append_elim h
        exact ⟨@applyActions_end_running mid env₂ [Action.remove] Action.run
            (Or.inl rfl) h2,
          post_transfer h1 (by decide) (by decide) h2⟩
      · have hlist : (ensureRunning st env).2 = (ensureImageIsUpdated st env).2 ++
            [Action.start] := by
          simp only [ensureRunning, hr]
          rw [if_neg hcond]
          simp [startOp, afterDrift_snd]
        rw [hlist] at h
        obtain ⟨mid, h1, h2⟩ := applyActions_append_elim h
        exact ⟨@applyActions_end_running mid env₂ [] Action.start (Or.inr rfl) h2,
          post_transfer h1 (by decide) (by decide) h2⟩

lemma ensureRunning_noop (st : ContainerState) (env : Env)
    (hch : st.changed = false) (hb : st.buildCommandStr = st.prevBuildCommand)
    (hr : st.runCommandStr = st.prevRunCommand)
    (hfresh : st.isLocalImage = true →
      ∃ t, env.inspectCreated = some t ∧ ∀ f ∈ env.files, f.2 ≤ t)
    (hpulled : st.isLocalImage = false → ∃ s, env.inspectId = some s ∧ s ≠ "")
    (hrun : running env = some true) :
    ensureRunning st env = (st, []) := by
  have heiiu : ensureImageIsUpdated st env = (st, []) := by
    unfold ensureImageIsUpdated
    rcases Bool.eq_false_or_eq_true st.isLocalImage with hL | hL
    · obtain ⟨t, hc, hall⟩ := hfresh hL
      have hnr : needsRebuild st env = (false, []) := needsRebuild_eq_false hb hc hall
      rw [if_pos hL, hnr]
      simp
    · obtain ⟨s, hsi, hne⟩ := hpulled hL
      have hnp : needsPull st env = (false, []) := needsPull_eq_false hsi hne
      rw [if_neg (by simp [hL]), hnp]
      simp
  have hdrift : afterDrift (ensureImageIsUpdated st env) = (st, []) := by
    rw [heiiu]
    unfold afterDrift
    rw [if_neg (fun hne => hne hr)]
  simp only [ensureRunning, hrun, hdrift]
  simp [hch, hr]

/-- C1: idempotence of Ensure Running.  If a first reconciliation towards
the running state completes (its executed actions affecting the runtime as
`stepAction` describes) and the persisted record is then overwritten by
`__del__` with the current command strings, a second reconciliation with
identical options against the resulting runtime and record executes no
action and reports `changed = false`.  The command token lists are the pure
outputs of the command builders, hence equal across the two calls; they are
non-empty and newline-free as every constructed docker command is. -/
theorem ensureRunning_idempotent
    (name image : String) (isLocal : Bool) (bc rc : List String) (content₀ : String)
    (env₁ env₂ : Env) (hbc : bc ≠ []) (hrc : rc ≠ [])
    (hbnl : '\n' ∉ (joinSpace bc).data) (hrnl : '\n' ∉ (joinSpace rc).data)
    (hstep : applyActions env₁
      (ensureRunning (freshState name image isLocal bc rc content₀) env₁).2 env₂) :
    (ensureRunning (freshState name image isLocal bc rc
        (delSave (ensureRunning (freshState name image isLocal bc rc content₀) env₁).1
          content₀)) env₂).2 = [] ∧
      (ensureRunning (freshState name image isLocal bc rc
          (delSave (ensureRunning (freshState name image isLocal bc rc content₀) env₁).1
            content₀)) env₂).1.changed = false := by
  obtain ⟨hrun2, hfresh, hpull⟩ :=
    ensureRunning_post (freshState name image isLocal bc rc content₀) env₁ env₂ hstep
  obtain ⟨c, rs, hshape⟩ :=
    ensureRunning_fst_shape (freshState name image isLocal bc rc content₀) env₁
  have hbcE : bc.isEmpty = false := by
    cases bc with
    | nil => exact absurd rfl hbc
    | cons a l => rfl
  have hrcE : rc.isEmpty = false := by
    cases rc with
    | nil => exact absurd rfl hrc
    | cons a l => rfl
  have hdel : delSave (ensureRunning (freshState name image isLocal bc rc content₀) env₁).1
      content₀ = joinSpace bc ++ "\n" ++ joinSpace rc := by
    rw [hshape]
    simp [delSave, hbcE, hrcE, freshState]
  rw [hdel]
  have hrecord : readRecord (joinSpace bc ++ "\n" ++ joinSpace rc) =
      (joinSpace bc, joinSpace rc) := readRecord_two_lines hbnl hrnl
  have hnoop := ensureRunning_noop
    (freshState name image isLocal bc rc (joinSpace bc ++ "\n" ++ joinSpace rc)) env₂
    rfl
    (by show joinSpace bc = (readRecord (joinSpace bc ++ "\n" ++ joinSpace rc)).1
        rw [hrecord])
    (by show joinSpace rc = (readRecord (joinSpace bc ++ "\n" ++ joinSpace rc)).2
        rw [hrecord])
    (fun hL => hfresh hL) (fun hL => hpull hL) hrun2
  rw [hnoop]
  exact ⟨rfl, rfl⟩

/-- Witness for C1: a concrete remote-mode first run (image absent, pulled;
container nonexistent, run) whose produced runtime state and persisted
record make the second run a no-op. -/
theorem ensureRunning_idempotent_witness :
    (["docker", "build"] : List String) ≠ [] ∧
      (["docker", "run"] : List String) ≠ [] ∧
      '\n' ∉ (joinSpace ["docker", "build"]).data ∧
      '\n' ∉ (joinSpace ["docker", "run"]).data ∧
      applyActions (Env.mk Option.none Option.none [] (some ""))
        (ensureRunning
          (freshState "c" "foo" false ["docker", "build"] ["docker", "run"] "")
          (Env.mk Option.none Option.none [] (some ""))).2
        (Env.mk (some "true") Option.none [] (some "sha")) ∧
      ((ensureRunning (freshState "c" "foo" false ["docker", "build"] ["docker", "run"]
          (delSave (ensureRunning
              (freshState "c" "foo" false ["docker", "build"] ["docker", "run"] "")
              (Env.mk Option.none Option.none [] (some ""))).1 ""))
          (Env.mk (some "true") Option.none [] (some "sha"))).2 = [] ∧
        (ensureRunning (freshState "c" "foo" false ["docker", "build"] ["docker", "run"]
            (delSave (ensureRunning
                (freshState "c" "foo" false ["docker", "build"] ["docker", "run"] "")
                (Env.mk Option.none Option.none [] (some ""))).1 ""))
            (Env.mk (some "true") Option.none [] (some "sha"))).1.changed = false) := by
  have hacts : (ensureRunning
      (freshState "c" "foo" false ["docker", "build"] ["docker", "run"] "")
      (Env.mk Option.none Option.none [] (some ""))).2 = [Action.pull, Action.run] := by
    rfl
  have s1 : stepAction Action.pull (Env.mk Option.none Option.none [] (some ""))
      (Env.mk Option.none Option.none [] (some "sha")) :=
    ⟨rfl, rfl, rfl, "sha", rfl, by decide⟩
  have s2 : stepAction Action.run (Env.mk Option.none Option.none [] (some "sha"))
      (Env.mk (some "true") Option.none [] (some "sha")) :=
    ⟨rfl, rfl, rfl, "true", rfl, by decide⟩
  have hstep : applyActions (Env.mk Option.none Option.none [] (some ""))
      (ensureRunning
        (freshState "c" "foo" false ["docker", "build"] ["docker", "run"] "")
        (Env.mk Option.none Option.none [] (some ""))).2
      (Env.mk (some "true") Option.none [] (some "sha")) := by
    rw [hacts]
    exact applyActions.cons s1 (applyActions.cons s2 (applyActions.nil _))
  refine ⟨by decide, by decide, by decide, by decide, hstep, ?_⟩
  exact ensureRunning_idempotent "c" "foo" false ["docker", "build"] ["docker", "run"]
    "" (Env.mk Option.none Option.none [] (some ""))
    (Env.mk (some "true") Option.none [] (some "sha"))
    (by decide) (by decide) (by decide) (by decide) hstep

end DockerSimple
